import Mathlib

/-!
Shallow embedding of the carousel bean-sorter controller in
`src/arduino_brain.ino`, together with proofs about its slot ring,
motion distribution, protocol parsing and finite-state machine.

Modelling conventions:
* Arduino `String` values are lists of characters; `readLine` delivers a
  trimmed, non-empty line, so the loop model takes an optional already
  trimmed line per iteration.
* Machine integers (`int`, `long`, `int8_t`) are modelled as `Int`; every
  value the program manipulates stays far below the overflow bounds of
  the source types for the properties proved here.
* `millis()` timestamps are natural numbers and the `unsigned long`
  subtraction `millis() - t0` is computed modulo 2^32 as on the device.
* Hardware effects (pin writes, servo commands, raw step pulses, debug
  prints) carry no logical state and are dropped; the protocol lines the
  program emits on serial are returned explicitly by the step function.
-/

namespace ArduinoBrain

/-- Number of carousel slots (`N_SLOTS`, 24). -/
def N_SLOTS : Nat := 24

/-- Physical position photographed by the host (`CAPTURE_POS`). -/
def CAPTURE_POS : Nat := 2

/-- Physical position of the normal-eject gate (`NORMAL_EJECT_POS`). -/
def NORMAL_EJECT_POS : Nat := 8

/-- Physical position of the passive defect drop (`DEFECT_EJECT_POS`). -/
def DEFECT_EJECT_POS : Nat := 11

/-- Configured rotation direction (`DIR_FORWARD`). -/
def DIR_FORWARD : Bool := true

/-- Full-revolution step count (`STEPS_PER_REV`, 3200 = 200 * 16). -/
def STEPS_PER_REV : Int := 3200

/-- Base microsteps per cell (`STEPS_CELL_BASE = STEPS_PER_REV / N_SLOTS`). -/
def STEPS_CELL_BASE : Int := STEPS_PER_REV / (N_SLOTS : Int)

/-- Microstep remainder per revolution (`STEPS_CELL_REM = STEPS_PER_REV % N_SLOTS`). -/
def STEPS_CELL_REM : Int := STEPS_PER_REV % (N_SLOTS : Int)

/-- Roller feed duration in milliseconds (`T_ROLL_MS`). -/
def T_ROLL_MS : Nat := 250

/-- Settle delay after the rollers stop (`T_FEED_SETTLE_MS`). -/
def T_FEED_SETTLE_MS : Nat := 200

/-- Time the normal-eject gate stays open (`T_NOR_OPEN_MS`). -/
def T_NOR_OPEN_MS : Nat := 200

/-- Host response timeout (`WAIT_RES_TIMEOUT_MS`). -/
def WAIT_RES_TIMEOUT_MS : Nat := 8000

/-- Compile-time debug switch; the source sets `#define DEBUG 1`. -/
def DEBUG : Bool := true

/-- Modulus of the 32-bit `unsigned long` returned by `millis()`. -/
def MILLIS_MOD : Nat := 4294967296

/-- Wraparound elapsed time `millis() - t0` on 32-bit unsigned arithmetic. -/
def elapsed (t0 now : Nat) : Nat :=
  ((now % MILLIS_MOD) + MILLIS_MOD - (t0 % MILLIS_MOD)) % MILLIS_MOD

/-- FSM states of the controller (`enum State` in the source). -/
inductive State where
  | ST_HOME_WAIT
  | ST_INIT
  | ST_FEED_ROLL_START
  | ST_FEED_ROLL_WAIT
  | ST_STEP_ONE_CELL
  | ST_CHECK_CAPTURE
  | ST_WAIT_RESULT
  | ST_CHECK_EJECT
  | ST_NORMAL_EJECT_OPEN
  | ST_NORMAL_EJECT_CLOSE_WAIT
  | ST_ERROR
deriving DecidableEq

/-- Complete logical state of the controller: the two per-slot arrays, the
ring offset, the id counter, the pending-request id, the Bresenham
accumulator, the FSM state and the `t0` deadline timestamp. -/
structure Machine where
  beanId : List Int
  beanState : List Int
  head : Nat
  nextBeanId : Int
  waitingBeanId : Int
  cell_err_acc : Int
  st : State
  t0 : Nat
deriving DecidableEq

/-- Mapping from a physical position to a slot-array index
(`slotIndexFromPos`): `idx = head + pos; idx %= N_SLOTS`.  The source
keeps the `int` variable `head` in `[0, N_SLOTS)` (it is assigned only
`0` and `(head + k) % N_SLOTS` for nonnegative `k`), where the C `%`
agrees with `Nat.mod`. -/
def slotIndexFromPos (head pos : Nat) : Nat :=
  (head + pos) % N_SLOTS

/-- Same mapping packaged as a function on in-range positions, used to
state the bijection property. -/
def slotPerm (head : Nat) : Fin N_SLOTS → Fin N_SLOTS :=
  fun p => ⟨slotIndexFromPos head p.val, Nat.mod_lt _ (by decide)⟩

/-- Slot-table reset `initSlots()`: every id and state becomes -1 and the
pending request is cleared. -/
def initSlots (m : Machine) : Machine :=
  { m with beanId := List.replicate N_SLOTS (-1),
           beanState := List.replicate N_SLOTS (-1),
           waitingBeanId := -1 }

/-- Step-count computation at the top of `moveOneCell()`: base steps plus
the Bresenham carry.  Returns the issued step count and the new
accumulator. -/
def moveOneCellCalc (acc : Int) : Int × Int :=
  let steps := STEPS_CELL_BASE
  let acc2 := acc + STEPS_CELL_REM
  if acc2 ≥ (N_SLOTS : Int) then (steps + 1, acc2 - (N_SLOTS : Int))
  else (steps, acc2)

/-- Logical effect of `moveOneCell()`: update the accumulator and rotate
`head` by one (`head--` modulo `N_SLOTS` in the `DIR_FORWARD` case). -/
def moveOneCell (m : Machine) : Machine :=
  let r := moveOneCellCalc m.cell_err_acc
  let head2 := if DIR_FORWARD then (m.head + N_SLOTS - 1) % N_SLOTS
               else (m.head + 1) % N_SLOTS
  { m with cell_err_acc := r.2, head := head2 }

/-- Step counts produced by `k` consecutive `moveOneCell()` calls starting
from accumulator value `acc`, with no intervening reset. -/
def cellSteps : Nat → Int → List Int
  | 0, _ => []
  | k + 1, acc =>
    let r := moveOneCellCalc acc
    r.1 :: cellSteps k r.2

/-- Whitespace test of C `isspace`, used by `atol` when `String::toInt`
parses a field: space, tab, newline, vertical tab, form feed, carriage
return. -/
def isSpaceChar (c : Char) : Bool :=
  c.toNat = 32 ∨ c.toNat = 9 ∨ c.toNat = 10 ∨ c.toNat = 11 ∨
  c.toNat = 12 ∨ c.toNat = 13

/-- Decimal digit test of C `isdigit` (codes 48 to 57). -/
def isDigitChar (c : Char) : Bool :=
  48 ≤ c.toNat ∧ c.toNat ≤ 57

/-- Left-to-right decimal accumulation of a digit run; stops at the first
non-digit, as `atol` does after the optional sign. -/
def readDigits : List Char → Nat → Nat
  | [], acc => acc
  | c :: rest, acc =>
    if isDigitChar c then readDigits rest (acc * 10 + (c.toNat - 48))
    else acc

/-- Behaviour of `String::toInt()` (C `atol`): skip leading whitespace,
read an optional sign, then a digit run; 0 when no digits follow.
Overflow of the 32-bit `long` is not modelled; the fields handled here
stay far below it. -/
def atol (s : List Char) : Int :=
  let t := s.dropWhile isSpaceChar
  match t with
  | [] => 0
  | c :: rest =>
    if c = '-' then -(readDigits rest 0 : Int)
    else if c = '+' then (readDigits rest 0 : Int)
    else (readDigits t 0 : Int)

/-- Behaviour of `String::indexOf(ch, fromIndex)`: index of the first
occurrence of `c` at or after position `i`, or -1. -/
def indexOfFrom (c : Char) (s : List Char) (i : Nat) : Int :=
  match (s.drop i).findIdx? (fun x => x = c) with
  | some j => ((i + j : Nat) : Int)
  | none => -1

/-- Behaviour of `String::substring(left, right)`: characters in
`[left, right)` after swapping the bounds if out of order and clamping
to the string length. -/
def substring (s : List Char) (l r : Nat) : List Char :=
  let p := if l > r then (r, l) else (l, r)
  (s.take p.2).drop p.1

/-- Prefix `"RES "` tested by `parseResLine`. -/
def RES_PRE : List Char := ['R', 'E', 'S', ' ']

/-- Administrative command `"HELP"`. -/
def CMD_HELP : List Char := ['H', 'E', 'L', 'P']

/-- Administrative command `"HOME"` (reset to home). -/
def CMD_HOME : List Char := ['H', 'O', 'M', 'E']

/-- Administrative command `"ZERO"` (zero / calibrate). -/
def CMD_ZERO : List Char := ['Z', 'E', 'R', 'O']

/-- Prefix `"JOG "` of the manual jog command. -/
def JOG_PRE : List Char := ['J', 'O', 'G', ' ']

/-- Result-line parser `parseResLine`: requires the `"RES "` prefix,
locates the first two spaces, converts the two following fields with
`toInt`, and accepts when `bean_id > 0` and `cls` is 0 or 1. -/
def parseResLine (line : List Char) : Option (Int × Int) :=
  if ¬ (List.isPrefixOf RES_PRE line) then none
  else
    let p1 := indexOfFrom (' ') line 0
    let p2 := indexOfFrom (' ') line (p1 + 1).toNat
    if p1 < 0 ∨ p2 < 0 then none
    else
      let bean_id := atol (substring line (p1 + 1).toNat p2.toNat)
      let cls := atol (substring line (p2 + 1).toNat line.length)
      if bean_id ≤ 0 then none
      else if ¬ (cls = 0 ∨ cls = 1) then none
      else some (bean_id, cls)

/-- Linear scan `findBeanIndexById`: first array index holding `bean_id`,
or -1. -/
def findBeanIndexById (ids : List Int) (bean_id : Int) : Int :=
  match ids.findIdx? (fun x => x = bean_id) with
  | some i => (i : Int)
  | none => -1

/-- Decimal rendering of a natural number, digit by digit, as
`Serial.print` produces for the nonnegative values printed here. -/
def natCharsAux (n : Nat) (acc : List Char) : List Char :=
  if h : n = 0 then acc
  else natCharsAux (n / 10) (Char.ofNat (48 + n % 10) :: acc)
termination_by n
decreasing_by exact Nat.div_lt_self (Nat.pos_of_ne_zero h) (by norm_num)

/-- Decimal rendering including the zero case. -/
def natChars (n : Nat) : List Char :=
  if n = 0 then ['0'] else natCharsAux n []

/-- Serial line produced by `sendCaptureRequest(bean_id, pos)`:
`"CAP <bean_id> <pos>"`.  It is only called with `bean_id > 0`. -/
def capLine (bean_id : Int) (pos : Nat) : List Char :=
  ['C', 'A', 'P', ' '] ++ natChars bean_id.toNat ++ (' ' :: natChars pos)

/-- Administrative command dispatch `handlePiCommand`: returns the
updated machine and whether the line was consumed.  `HELP` prints only;
`HOME` forces `ST_HOME_WAIT` from any state; `ZERO` is ignored outside
`ST_HOME_WAIT` and otherwise re-aligns (motion only), resets `head`, the
accumulator and the slot table, and starts the FSM; `JOG ...` moves the
motor only. -/
def handlePiCommand (m : Machine) (line : List Char) : Machine × Bool :=
  if line = CMD_HELP then (m, true)
  else if line = CMD_HOME then ({ m with st := .ST_HOME_WAIT }, true)
  else if line = CMD_ZERO then
    if m.st ≠ .ST_HOME_WAIT then (m, true)
    else
      let m2 := initSlots m
      ({ m2 with head := 0, cell_err_acc := 0,
                 waitingBeanId := -1, st := .ST_INIT }, true)
  else if List.isPrefixOf JOG_PRE line then (m, true)
  else (m, false)

/-- Inbound `RES` handling in `loop()`: on a parsed result whose id is
found in a slot, overwrite that slot's state with the class and clear
`waitingBeanId` when it names the pending bean; otherwise do nothing. -/
def processResLine (m : Machine) (line : List Char) : Machine :=
  match parseResLine line with
  | some (rid, rcls) =>
    let idx := findBeanIndexById m.beanId rid
    if idx ≥ 0 then
      let m2 := { m with beanState := m.beanState.set idx.toNat rcls }
      if m2.waitingBeanId = rid then { m2 with waitingBeanId := -1 } else m2
    else m
  | none => m

/-- Serial phase of one `loop()` iteration on a non-empty trimmed line:
administrative commands are handled first and, when consumed, suppress
the FSM step for this iteration (the `Bool`); otherwise the line goes
through the `RES` handler. -/
def serialPhase (m : Machine) (line : List Char) : Machine × Bool :=
  let r := handlePiCommand m line
  if r.2 then (r.1, true) else (processResLine r.1 line, false)

/-- One step of the FSM `switch` in `loop()`, parameterised by the
compile-time `DEBUG` flag and the current `millis()` value.  Returns the
new machine and the protocol lines emitted. -/
def stepFSM (debug : Bool) (now : Nat) (m : Machine) :
    Machine × List (List Char) :=
  match m.st with
  | .ST_HOME_WAIT => (m, [])
  | .ST_INIT => ({ m with st := .ST_FEED_ROLL_START }, [])
  | .ST_FEED_ROLL_START =>
    ({ m with t0 := now, st := .ST_FEED_ROLL_WAIT }, [])
  | .ST_FEED_ROLL_WAIT =>
    if elapsed m.t0 now ≥ T_ROLL_MS then
      let i0 := slotIndexFromPos m.head 0
      if m.beanState.getD i0 (-1) ≠ -1 then
        ({ m with t0 := now, st := .ST_ERROR }, [])
      else
        let newId := m.nextBeanId + 1
        ({ m with t0 := now, nextBeanId := newId,
                  beanId := m.beanId.set i0 newId,
                  beanState := m.beanState.set i0 3,
                  st := .ST_STEP_ONE_CELL }, [])
    else (m, [])
  | .ST_STEP_ONE_CELL =>
    if elapsed m.t0 now ≥ T_FEED_SETTLE_MS then
      ({ moveOneCell m with st := .ST_CHECK_CAPTURE }, [])
    else (m, [])
  | .ST_CHECK_CAPTURE =>
    let ic := slotIndexFromPos m.head CAPTURE_POS
    if m.beanState.getD ic (-1) = 3 ∧ m.beanId.getD ic (-1) > 0 then
      let bid := m.beanId.getD ic (-1)
      if debug then
        ({ m with beanState := m.beanState.set ic 1,
                  waitingBeanId := -1, st := .ST_CHECK_EJECT }, [])
      else
        ({ m with beanState := m.beanState.set ic 2,
                  waitingBeanId := bid, t0 := now,
                  st := .ST_WAIT_RESULT }, [capLine bid CAPTURE_POS])
    else ({ m with st := .ST_CHECK_EJECT }, [])
  | .ST_WAIT_RESULT =>
    if m.waitingBeanId = -1 then ({ m with st := .ST_CHECK_EJECT }, [])
    else if elapsed m.t0 now ≥ WAIT_RES_TIMEOUT_MS then
      let idx := findBeanIndexById m.beanId m.waitingBeanId
      let m2 := if idx ≥ 0 then
          { m with beanState := m.beanState.set idx.toNat 0 }
        else m
      ({ m2 with waitingBeanId := -1, st := .ST_CHECK_EJECT }, [])
    else (m, [])
  | .ST_CHECK_EJECT =>
    let iNor := slotIndexFromPos m.head NORMAL_EJECT_POS
    let idn := m.beanId.getD iNor (-1)
    let sn := m.beanState.getD iNor (-1)
    if sn = 1 ∧ idn > 0 then ({ m with st := .ST_NORMAL_EJECT_OPEN }, [])
    else
      let iDef := slotIndexFromPos m.head DEFECT_EJECT_POS
      let bid := m.beanId.getD iDef (-1)
      let sd := m.beanState.getD iDef (-1)
      let m2 := if sd ≠ -1 ∧ bid > 0 then
          { m with beanId := m.beanId.set iDef (-1),
                   beanState := m.beanState.set iDef (-1) }
        else m
      ({ m2 with st := .ST_FEED_ROLL_START }, [])
  | .ST_NORMAL_EJECT_OPEN =>
    ({ m with t0 := now, st := .ST_NORMAL_EJECT_CLOSE_WAIT }, [])
  | .ST_NORMAL_EJECT_CLOSE_WAIT =>
    if elapsed m.t0 now ≥ T_NOR_OPEN_MS then
      let iNor := slotIndexFromPos m.head NORMAL_EJECT_POS
      ({ m with beanId := m.beanId.set iNor (-1),
                beanState := m.beanState.set iNor (-1),
                st := .ST_FEED_ROLL_START }, [])
    else (m, [])
  | .ST_ERROR => (m, [])

/-- One full `loop()` iteration: drain at most one line (already trimmed
and non-empty when present); a consumed administrative command skips the
FSM step, everything else falls through to the FSM. -/
def loopIter (debug : Bool) (now : Nat) (inLine : Option (List Char))
    (m : Machine) : Machine × List (List Char) :=
  match inLine with
  | some line =>
    let r := serialPhase m line
    if r.2 then (r.1, []) else stepFSM debug now r.1
  | none => stepFSM debug now m

/-- Run of consecutive loop iterations over a list of
(`millis()`, optional line) events, discarding serial output. -/
def run (debug : Bool) : List (Nat × Option (List Char)) → Machine → Machine
  | [], m => m
  | (now, l) :: rest, m => run debug rest (loopIter debug now l m).1

/-- Machine state after `setup()` with `MANUAL_HOME` set: cleared slots,
zeroed counters, FSM parked in `ST_HOME_WAIT`. -/
def bootMachine : Machine :=
  { beanId := List.replicate N_SLOTS (-1),
    beanState := List.replicate N_SLOTS (-1),
    head := 0, nextBeanId := 0, waitingBeanId := -1,
    cell_err_acc := 0, st := .ST_HOME_WAIT, t0 := 0 }

/-- Machine state right after the calibrate command `ZERO` is accepted
from `ST_HOME_WAIT` (the post-calibrate state). -/
def postZero : Machine :=
  (loopIter DEBUG 0 (some CMD_ZERO) bootMachine).1

/-- C2: starting from any accumulator value in `[0, N_SLOTS)`, the step
counts of `N_SLOTS = 24` consecutive `moveOneCell` calls with no
intervening reset sum to `STEPS_PER_REV = 3200` exactly, with exactly 8
cells taking the extra step (134) and the remaining 16 taking the base
count (133). -/
theorem cellSteps_full_revolution (acc : Int) (h0 : 0 ≤ acc)
    (h1 : acc < (N_SLOTS : Int)) :
    (cellSteps N_SLOTS acc).sum = STEPS_PER_REV ∧
    (cellSteps N_SLOTS acc).count 134 = 8 ∧
    (cellSteps N_SLOTS acc).count 133 = 16 ∧
    (cellSteps N_SLOTS acc).length = N_SLOTS := by
  have key : ∀ j : Fin 24,
      (cellSteps N_SLOTS ((j : Nat) : Int)).sum = STEPS_PER_REV ∧
      (cellSteps N_SLOTS ((j : Nat) : Int)).count 134 = 8 ∧
      (cellSteps N_SLOTS ((j : Nat) : Int)).count 133 = 16 ∧
      (cellSteps N_SLOTS ((j : Nat) : Int)).length = N_SLOTS := by decide
  have hacc : acc = ((acc.toNat : Nat) : Int) := (Int.toNat_of_nonneg h0).symm
  have h1' : acc < 24 := by simpa [N_SLOTS] using h1
  have hlt : acc.toNat < 24 := by omega
  rw [hacc]
  exact key ⟨acc.toNat, hlt⟩

/-- Witness for C2 at the reset accumulator value 0. -/
theorem cellSteps_full_revolution_witness :
    (cellSteps N_SLOTS 0).sum = STEPS_PER_REV ∧
    (cellSteps N_SLOTS 0).count 134 = 8 ∧
    (cellSteps N_SLOTS 0).count 133 = 16 ∧
    (cellSteps N_SLOTS 0).length = N_SLOTS :=
  cellSteps_full_revolution 0 (by decide) (by decide)

/-- C3: for every `head` in `[0, N_SLOTS)` and position `pos` in
`[0, N_SLOTS)`, `slotIndexFromPos` computes `(head + pos) % N_SLOTS`,
and for fixed `head` the in-range mapping is a bijection of the slot
indices. -/
theorem slotIndexFromPos_affine_bijective (head : Nat) (_hh : head < N_SLOTS) :
    (∀ pos : Nat, pos < N_SLOTS →
       slotIndexFromPos head pos = (head + pos) % N_SLOTS) ∧
    Function.Bijective (slotPerm head) := by
  refine ⟨fun pos _ => rfl, ?_⟩
  have hinj : Function.Injective (slotPerm head) := by
    intro p q hpq
    have h1 : (head + p.val) % N_SLOTS = (head + q.val) % N_SLOTS :=
      congrArg Fin.val hpq
    have h2 : p.val % N_SLOTS = q.val % N_SLOTS :=
      Nat.ModEq.add_left_cancel' head h1
    apply Fin.ext
    rwa [Nat.mod_eq_of_lt p.isLt, Nat.mod_eq_of_lt q.isLt] at h2
  exact Finite.injective_iff_bijective.mp hinj

/-- Witness for C3 at `head = 5`. -/
theorem slotIndexFromPos_affine_bijective_witness :
    Function.Bijective (slotPerm 5) :=
  (slotIndexFromPos_affine_bijective 5 (by decide)).2

/-- The `RES` handler never changes the FSM state field. -/
lemma processResLine_st (m : Machine) (l : List Char) :
    (processResLine m l).st = m.st := by
  unfold processResLine
  rcases h : parseResLine l with _ | ⟨rid, rcls⟩
  · rfl
  · dsimp only
    split_ifs <;> rfl

/-- A line accepted by `parseResLine` starts with `"RES "`. -/
lemma res_prefix_of_parse {l : List Char} {rid rcls : Int}
    (h : parseResLine l = some (rid, rcls)) :
    List.isPrefixOf RES_PRE l = true := by
  by_cases hp : List.isPrefixOf RES_PRE l
  · exact hp
  · unfold parseResLine at h
    simp [hp] at h

/-- A line starting with `"RES "` is not an administrative command, so
`handlePiCommand` leaves the machine untouched and does not consume it. -/
lemma handlePi_of_res (m : Machine) {l : List Char}
    (h : List.isPrefixOf RES_PRE l = true) :
    handlePiCommand m l = (m, false) := by
  rw [List.isPrefixOf_iff_prefix] at h
  obtain ⟨t, rfl⟩ := h
  simp [handlePiCommand, RES_PRE, CMD_HELP, CMD_HOME, CMD_ZERO, JOG_PRE,
    List.isPrefixOf]

/-- C8: a `ZERO` command received while the FSM is in any state other
than `ST_HOME_WAIT` is consumed without any effect: the whole loop
iteration returns the machine unchanged (so `head`, both slot arrays,
the remainder accumulator and the FSM state are all preserved) and
emits nothing. -/
theorem zero_outside_homewait_noop (m : Machine) (now : Nat)
    (h : m.st ≠ .ST_HOME_WAIT) :
    loopIter DEBUG now (some CMD_ZERO) m = (m, []) := by
  simp [loopIter, serialPhase, handlePiCommand, h, CMD_ZERO, CMD_HELP,
    CMD_HOME, JOG_PRE, List.isPrefixOf]

/-- Witness for C8: a `ZERO` received in `ST_INIT` changes nothing. -/
theorem zero_outside_homewait_noop_witness :
    loopIter DEBUG 0 (some CMD_ZERO) { bootMachine with st := .ST_INIT } =
      ({ bootMachine with st := .ST_INIT }, []) :=
  zero_outside_homewait_noop { bootMachine with st := .ST_INIT } 0 (by decide)

/-- Counterexample to C9 as stated: from `ST_ERROR` the inbound
reset-to-home line `"HOME"` moves the FSM to `ST_HOME_WAIT`, so the
Error state is not terminal. -/
theorem error_home_recovery_counterexample :
    ((loopIter DEBUG 0 (some CMD_HOME)
        { bootMachine with st := .ST_ERROR }).1).st = .ST_HOME_WAIT ∧
    State.ST_HOME_WAIT ≠ State.ST_ERROR := by
  exact ⟨by decide, by decide⟩

/-- C9 amended: the Error state is terminal with respect to FSM steps
and every inbound protocol line except the reset-to-home command
`"HOME"`: any iteration whose input line is not `"HOME"` leaves the FSM
in `ST_ERROR`. -/
theorem error_terminal_except_home (m : Machine) (now : Nat)
    (oline : Option (List Char)) (hst : m.st = .ST_ERROR)
    (hl : oline ≠ some CMD_HOME) :
    ((loopIter DEBUG now oline m).1).st = .ST_ERROR := by
  cases oline with
  | none => simp [loopIter, stepFSM, hst]
  | some line =>
    have hlne : line ≠ CMD_HOME := fun hc => hl (by rw [hc])
    by_cases h1 : line = CMD_HELP
    · simp [loopIter, serialPhase, handlePiCommand, h1, hst, CMD_HELP,
        CMD_HOME, CMD_ZERO]
    · by_cases h3 : line = CMD_ZERO
      · subst h3
        simp [loopIter, serialPhase, handlePiCommand, hst, CMD_ZERO,
          CMD_HELP, CMD_HOME]
      · by_cases h4 : List.isPrefixOf JOG_PRE line
        · simp [loopIter, serialPhase, handlePiCommand, h1, hlne, h3, h4, hst]
        · simp [loopIter, serialPhase, handlePiCommand, h1, hlne, h3, h4,
            stepFSM, processResLine_st, hst]

/-- Witness for the amended C9: a `ZERO` line received in `ST_ERROR`
leaves the FSM in `ST_ERROR`. -/
theorem error_terminal_except_home_witness :
    ((loopIter DEBUG 0 (some CMD_ZERO)
        { bootMachine with st := .ST_ERROR }).1).st = .ST_ERROR :=
  error_terminal_except_home { bootMachine with st := .ST_ERROR } 0
    (some CMD_ZERO) (by decide) (by decide)

/-- C7: processing a well-formed `RES` line whose bean id is found in no
slot leaves the machine completely unchanged (every slot id and state
and the pending-request identity included) and does not consume the
line as a command; the classification is simply lost. -/
theorem res_unknown_id_noop (m : Machine) (l : List Char) (rid rcls : Int)
    (hp : parseResLine l = some (rid, rcls))
    (hf : findBeanIndexById m.beanId rid = -1) :
    serialPhase m l = (m, false) := by
  have h1 := handlePi_of_res m (res_prefix_of_parse hp)
  simp [serialPhase, h1, processResLine, hp, hf]

/-- Witness for C7: `"RES 9 1"` against the empty post-calibrate ring. -/
theorem res_unknown_id_noop_witness :
    serialPhase postZero ['R', 'E', 'S', ' ', '9', ' ', '1'] =
      (postZero, false) :=
  res_unknown_id_noop postZero ['R', 'E', 'S', ' ', '9', ' ', '1'] 9 1
    (by decide) (by decide)

/-- Concrete machine used around C4: `ST_CHECK_CAPTURE`, `head = 0`, and
an Entered bean with id 7 sitting at the capture position. -/
def capDemoMachine : Machine :=
  { bootMachine with
      st := .ST_CHECK_CAPTURE,
      beanId := (List.replicate N_SLOTS (-1)).set 2 7,
      beanState := (List.replicate N_SLOTS (-1)).set 2 3 }

/-- Counterexample to C4 as stated: the source is compiled with
`DEBUG = 1`, so a CheckCapture step over an Entered bean auto-classifies
it as Normal (state 1), emits no capture request, and goes straight to
`ST_CHECK_EJECT` instead of marking it CaptureRequested and entering
`ST_WAIT_RESULT`. -/
theorem checkCapture_debug_counterexample :
    (stepFSM DEBUG 0 capDemoMachine).1.st = .ST_CHECK_EJECT ∧
    (stepFSM DEBUG 0 capDemoMachine).1.beanState.getD 2 (-1) = 1 ∧
    (stepFSM DEBUG 0 capDemoMachine).2 = [] ∧
    State.ST_CHECK_EJECT ≠ State.ST_WAIT_RESULT := by
  exact ⟨by decide, by decide, by decide, by decide⟩

/-- C4 amended: with the debug switch off (`DEBUG = 0`), a CheckCapture
step over an Entered bean with positive id marks it CaptureRequested,
records it as the pending request, emits `"CAP <beanId> <pos>"`, records
the response deadline and enters `ST_WAIT_RESULT`; otherwise the step
goes directly to `ST_CHECK_EJECT` with no slot or pending-request
change.  In the shipped source `DEBUG = 1` replaces the first branch by
auto-classification as Normal. -/
theorem checkCapture_behavior (m : Machine) (now : Nat)
    (hst : m.st = .ST_CHECK_CAPTURE) :
    ((m.beanState.getD (slotIndexFromPos m.head CAPTURE_POS) (-1) = 3 ∧
      m.beanId.getD (slotIndexFromPos m.head CAPTURE_POS) (-1) > 0) →
      stepFSM false now m =
        ({ m with
            beanState :=
              m.beanState.set (slotIndexFromPos m.head CAPTURE_POS) 2,
            waitingBeanId :=
              m.beanId.getD (slotIndexFromPos m.head CAPTURE_POS) (-1),
            t0 := now, st := .ST_WAIT_RESULT },
         [capLine (m.beanId.getD (slotIndexFromPos m.head CAPTURE_POS) (-1))
            CAPTURE_POS])) ∧
    (¬ (m.beanState.getD (slotIndexFromPos m.head CAPTURE_POS) (-1) = 3 ∧
        m.beanId.getD (slotIndexFromPos m.head CAPTURE_POS) (-1) > 0) →
      stepFSM false now m = ({ m with st := .ST_CHECK_EJECT }, [])) := by
  constructor <;> intro h <;>
    simp only [List.getD_eq_getElem?_getD] at h <;>
    simp [stepFSM, hst, h]

/-- Witness for the amended C4 on the concrete capture scenario. -/
theorem checkCapture_behavior_witness :
    stepFSM false 0 capDemoMachine =
      ({ capDemoMachine with
          beanState := capDemoMachine.beanState.set 2 2,
          waitingBeanId := 7, t0 := 0, st := .ST_WAIT_RESULT },
       [capLine 7 2]) :=
  (checkCapture_behavior capDemoMachine 0 rfl).1 (by decide)

/-- C6: in `ST_WAIT_RESULT` with a pending request, (i) a timeout
iteration (no inbound line, deadline elapsed) sets the pending bean's
state to Defect, clears the pending id and moves to `ST_CHECK_EJECT`;
(ii) an iteration carrying a matching `RES` applies the received class
and clears the pending id with the same transition, and does so whether
or not the deadline has elapsed, so the timeout default can never fire
for a request answered in time or in the answering iteration; (iii) an
iteration with no line before the deadline changes nothing; (iv) once
the pending id is cleared the step only moves to `ST_CHECK_EJECT`,
touching no slot — each request is resolved exactly once. -/
theorem waitResult_resolution :
    (∀ (m : Machine) (now : Nat) (j : Nat),
      m.st = .ST_WAIT_RESULT → m.waitingBeanId ≠ -1 →
      elapsed m.t0 now ≥ WAIT_RES_TIMEOUT_MS →
      findBeanIndexById m.beanId m.waitingBeanId = (j : Int) →
      (loopIter DEBUG now none m).1 =
        { m with beanState := m.beanState.set j 0,
                 waitingBeanId := -1, st := .ST_CHECK_EJECT }) ∧
    (∀ (m : Machine) (now : Nat) (l : List Char) (rcls : Int) (j : Nat),
      m.st = .ST_WAIT_RESULT → m.waitingBeanId ≠ -1 →
      parseResLine l = some (m.waitingBeanId, rcls) →
      findBeanIndexById m.beanId m.waitingBeanId = (j : Int) →
      (loopIter DEBUG now (some l) m).1 =
        { m with beanState := m.beanState.set j rcls,
                 waitingBeanId := -1, st := .ST_CHECK_EJECT }) ∧
    (∀ (m : Machine) (now : Nat),
      m.st = .ST_WAIT_RESULT → m.waitingBeanId ≠ -1 →
      elapsed m.t0 now < WAIT_RES_TIMEOUT_MS →
      (loopIter DEBUG now none m).1 = m) ∧
    (∀ (m : Machine) (now : Nat),
      m.st = .ST_WAIT_RESULT → m.waitingBeanId = -1 →
      (loopIter DEBUG now none m).1 = { m with st := .ST_CHECK_EJECT }) := by
  refine ⟨?_, ?_, ?_, ?_⟩
  · intro m now j hst hw he hf
    simp [loopIter, stepFSM, hst, hw, he, hf]
  · intro m now l rcls j hst hw hp hf
    have hpi := handlePi_of_res m (res_prefix_of_parse hp)
    simp [loopIter, serialPhase, hpi, processResLine, hp, hf, stepFSM, hst]
  · intro m now hst hw he
    simp [loopIter, stepFSM, hst, hw, Nat.not_le.mpr he]
  · intro m now hst hw
    simp [loopIter, stepFSM, hst, hw]

/-- Concrete machine used for the C6 witness: waiting on bean 5, which
sits CaptureRequested in slot 0, request stamped at `t0 = 0`. -/
def waitDemoMachine : Machine :=
  { bootMachine with
      st := .ST_WAIT_RESULT, waitingBeanId := 5,
      beanId := (List.replicate N_SLOTS (-1)).set 0 5,
      beanState := (List.replicate N_SLOTS (-1)).set 0 2 }

/-- Witness for C6: the timeout clause applied at `now = 8000`. -/
theorem waitResult_resolution_witness :
    (loopIter DEBUG 8000 none waitDemoMachine).1 =
      { waitDemoMachine with
          beanState := waitDemoMachine.beanState.set 0 0,
          waitingBeanId := -1, st := .ST_CHECK_EJECT } :=
  waitResult_resolution.1 waitDemoMachine 8000 0 rfl (by decide) (by decide)
    (by decide)

/-- A write `List.set k v` that changed the value read at `i` must have
written `v` there. -/
lemma getD_set_of_ne (l : List Int) (i k : Nat) (v : Int)
    (h : (l.set k v).getD i (-1) ≠ l.getD i (-1)) :
    (l.set k v).getD i (-1) = v := by
  simp only [List.getD_eq_getElem?_getD, List.getElem?_set] at h ⊢
  by_cases hik : k = i
  · subst hik
    by_cases hk : k < l.length
    · simp [hk] at h ⊢
    · have hnone : l[k]? = none := List.getElem?_eq_none (by omega)
      simp [hk, hnone] at h
  · simp [hik] at h

/-- Reading the freshly cleared slot table yields the empty sentinel. -/
lemma getD_replicate_neg (n i : Nat) :
    (List.replicate n (-1 : Int)).getD i (-1) = -1 := by
  simp only [List.getD_eq_getElem?_getD, List.getElem?_replicate]
  split_ifs <;> rfl

/-- No administrative command touches the id counter. -/
lemma handlePi_nextBeanId (m : Machine) (l : List Char) :
    ((handlePiCommand m l).1).nextBeanId = m.nextBeanId := by
  unfold handlePiCommand
  split_ifs <;> rfl

/-- The `RES` handler never touches the id counter. -/
lemma processResLine_nextBeanId (m : Machine) (l : List Char) :
    (processResLine m l).nextBeanId = m.nextBeanId := by
  unfold processResLine
  cases h : parseResLine l with
  | none => rfl
  | some p =>
    cases p
    dsimp only
    split_ifs <;> rfl

/-- The `RES` handler never touches the slot id array. -/
lemma processResLine_beanId (m : Machine) (l : List Char) :
    (processResLine m l).beanId = m.beanId := by
  unfold processResLine
  cases h : parseResLine l with
  | none => rfl
  | some p =>
    cases p
    dsimp only
    split_ifs <;> rfl

/-- The serial phase of an iteration never touches the id counter. -/
lemma serialPhase_nextBeanId (m : Machine) (l : List Char) :
    ((serialPhase m l).1).nextBeanId = m.nextBeanId := by
  unfold serialPhase handlePiCommand
  split_ifs <;> simp [initSlots, processResLine_nextBeanId]

/-- The serial phase either preserves the slot id array or (on an
accepted `ZERO`) resets it wholesale to the empty sentinel. -/
lemma serialPhase_beanId_cases (m : Machine) (l : List Char) :
    ((serialPhase m l).1).beanId = m.beanId ∨
    ((serialPhase m l).1).beanId = List.replicate N_SLOTS (-1) := by
  unfold serialPhase handlePiCommand
  split_ifs <;> simp [initSlots, processResLine_beanId]

/-- When no administrative command fires, the serial phase is exactly
the `RES` handler. -/
lemma serialPhase_unhandled_eq (m : Machine) (l : List Char)
    (h : (serialPhase m l).2 = false) :
    (serialPhase m l).1 = processResLine m l := by
  unfold serialPhase handlePiCommand at h ⊢
  split_ifs at h ⊢ <;> simp_all

/-- The FSM step never decreases the id counter. -/
lemma stepFSM_next_mono (debug : Bool) (now : Nat) (m : Machine) :
    m.nextBeanId ≤ ((stepFSM debug now m).1).nextBeanId := by
  cases hst : m.st <;>
    simp only [stepFSM, hst, moveOneCell] <;>
    (try split_ifs) <;> simp

/-- Any FSM step that writes a fresh (non-sentinel) id into some slot
writes exactly the incremented counter, and bumps the counter to it. -/
lemma stepFSM_beanId_change (debug : Bool) (now : Nat) (m : Machine) (i : Nat)
    (hch : ((stepFSM debug now m).1).beanId.getD i (-1) ≠ m.beanId.getD i (-1))
    (hne : ((stepFSM debug now m).1).beanId.getD i (-1) ≠ -1) :
    ((stepFSM debug now m).1).beanId.getD i (-1) = m.nextBeanId + 1 ∧
    ((stepFSM debug now m).1).nextBeanId = m.nextBeanId + 1 := by
  cases hst : m.st <;>
    simp only [stepFSM, hst, moveOneCell] at hch hne ⊢ <;>
    (try split_ifs at hch hne ⊢) <;>
    first
      | exact absurd rfl hch
      | exact absurd (getD_set_of_ne _ _ _ _ hch) hne
      | exact ⟨getD_set_of_ne _ _ _ _ hch, rfl⟩

/-- A full loop iteration never decreases the id counter. -/
lemma loopIter_next_mono (debug : Bool) (now : Nat)
    (oline : Option (List Char)) (m : Machine) :
    m.nextBeanId ≤ ((loopIter debug now oline m).1).nextBeanId := by
  cases oline with
  | none => exact stepFSM_next_mono debug now m
  | some l =>
    by_cases hh : (serialPhase m l).2
    · simp [loopIter, hh, serialPhase_nextBeanId]
    · have hred : (loopIter debug now (some l) m).1 =
          (stepFSM debug now (serialPhase m l).1).1 := by
        simp [loopIter, hh]
      rw [hred]
      calc m.nextBeanId = ((serialPhase m l).1).nextBeanId :=
            (serialPhase_nextBeanId m l).symm
        _ ≤ _ := stepFSM_next_mono debug now _

/-- C10: the bean-id counter survives every protocol command after boot;
(i) no loop iteration ever decreases it, (ii) a `ZERO` command leaves it
exactly unchanged even though it resets `head`, the accumulator, the
slot table and the pending request, (iii) whenever an iteration stores a
fresh id into a slot, that id is the incremented counter — strictly
greater than every id issued earlier, since by (i) the counter never
went down since any earlier issue — and (iv) the counter is monotone
along arbitrary multi-iteration runs. -/
theorem beanId_counter_monotone :
    (∀ (debug : Bool) (now : Nat) (oline : Option (List Char)) (m : Machine),
      m.nextBeanId ≤ ((loopIter debug now oline m).1).nextBeanId) ∧
    (∀ (now : Nat) (m : Machine),
      ((loopIter DEBUG now (some CMD_ZERO) m).1).nextBeanId = m.nextBeanId) ∧
    (∀ (debug : Bool) (now : Nat) (oline : Option (List Char)) (m : Machine)
       (i : Nat),
      ((loopIter debug now oline m).1).beanId.getD i (-1) ≠
        m.beanId.getD i (-1) →
      ((loopIter debug now oline m).1).beanId.getD i (-1) ≠ -1 →
      ((loopIter debug now oline m).1).beanId.getD i (-1) =
          m.nextBeanId + 1 ∧
        ((loopIter debug now oline m).1).nextBeanId = m.nextBeanId + 1) ∧
    (∀ (debug : Bool) (evs : List (Nat × Option (List Char))) (m : Machine),
      m.nextBeanId ≤ (run debug evs m).nextBeanId) := by
  refine ⟨loopIter_next_mono, ?_, ?_, ?_⟩
  · intro now m
    by_cases hh : (serialPhase m CMD_ZERO).2
    · simp [loopIter, hh, serialPhase_nextBeanId]
    · exfalso
      unfold serialPhase handlePiCommand at hh
      simp [CMD_ZERO, CMD_HELP, CMD_HOME] at hh
      split_ifs at hh <;> simp_all
  · intro debug now oline m i hch hne
    cases oline with
    | none => exact stepFSM_beanId_change debug now m i hch hne
    | some l =>
      by_cases hh : (serialPhase m l).2
      · have hred : (loopIter debug now (some l) m).1 = (serialPhase m l).1 := by
          simp [loopIter, hh]
        rw [hred] at hch hne
        rcases serialPhase_beanId_cases m l with hb | hb
        · rw [hb] at hch
          exact absurd rfl hch
        · rw [hb] at hne
          exact absurd (getD_replicate_neg _ _) hne
      · have hred : (loopIter debug now (some l) m).1 =
            (stepFSM debug now (serialPhase m l).1).1 := by
          simp [loopIter, hh]
        rw [hred] at hch hne ⊢
        have hb : ((serialPhase m l).1).beanId = m.beanId := by
          rw [serialPhase_unhandled_eq m l (by simpa using hh)]
          exact processResLine_beanId m l
        rw [← hb] at hch
        obtain ⟨ha, hb2⟩ := stepFSM_beanId_change debug now _ i hch hne
        rw [serialPhase_nextBeanId] at ha hb2
        exact ⟨ha, hb2⟩
  · intro debug evs
    induction evs with
    | nil => intro m; exact le_refl _
    | cons e rest ih =>
      intro m
      obtain ⟨now, l⟩ := e
      calc m.nextBeanId ≤ ((loopIter debug now l m).1).nextBeanId :=
            loopIter_next_mono debug now l m
        _ ≤ _ := ih _

/-- Concrete feed scenario for the C10 witness: `ST_FEED_ROLL_WAIT` with
the counter at 7 and the feed deadline reached. -/
def feedDemoMachine : Machine :=
  { bootMachine with st := .ST_FEED_ROLL_WAIT, nextBeanId := 7 }

/-- Witness for C10: feeding at counter 7 registers the bean as id 8 and
bumps the counter to 8. -/
theorem beanId_counter_monotone_witness :
    ((loopIter DEBUG 250 none feedDemoMachine).1).beanId.getD 0 (-1) = 8 ∧
    ((loopIter DEBUG 250 none feedDemoMachine).1).nextBeanId = 8 := by
  have h := beanId_counter_monotone.2.2.1 DEBUG 250 none feedDemoMachine 0
    (by decide) (by decide)
  simpa using h

/-- Event trace for C1: ten input-free iterations after calibration.
They feed bean 1 (iteration 3), advance it to the capture position and
let the `DEBUG = 1` CheckCapture branch run (iteration 10). -/
def c1Events : List (Nat × Option (List Char)) :=
  [(0, none), (0, none), (250, none), (450, none), (450, none), (450, none),
   (450, none), (700, none), (900, none), (900, none)]

/-- C1 fails on the code: along a concrete reachable trace from the
post-calibrate state, bean 1 is registered Entered (state 3), then the
`DEBUG = 1` CheckCapture step moves it directly to Normal (state 1)
without ever being CaptureRequested, and a subsequent inbound
`"RES 1 0"` line moves the same Normal bean backwards to Defect
(state 0) — two transitions outside the claimed forward-only chain. -/
theorem beanState_forward_only_violated :
    ((run DEBUG (c1Events.take 8) postZero).beanState.getD 0 (-1) = 3 ∧
     (run DEBUG (c1Events.take 8) postZero).beanId.getD 0 (-1) = 1) ∧
    ((run DEBUG c1Events postZero).beanState.getD 0 (-1) = 1 ∧
     (run DEBUG c1Events postZero).beanId.getD 0 (-1) = 1) ∧
    (((loopIter DEBUG 900 (some ['R', 'E', 'S', ' ', '1', ' ', '0'])
        (run DEBUG c1Events postZero)).1).beanState.getD 0 (-1) = 0 ∧
     ((loopIter DEBUG 900 (some ['R', 'E', 'S', ' ', '1', ' ', '0'])
        (run DEBUG c1Events postZero)).1).beanId.getD 0 (-1) = 1) := by
  exact ⟨⟨by decide, by decide⟩, ⟨by decide, by decide⟩, by decide, by decide⟩

/-- Digits are not C whitespace. -/
lemma digit_not_space {c : Char} (h : isDigitChar c = true) :
    isSpaceChar c = false := by
  simp only [isDigitChar, decide_eq_true_eq] at h
  simp only [isSpaceChar, decide_eq_false_iff_not]
  omega

/-- Digits are not the minus sign. -/
lemma digit_ne_minus {c : Char} (h : isDigitChar c = true) : c ≠ '-' := by
  intro hc
  subst hc
  exact absurd h (by decide)

/-- Digits are not the plus sign. -/
lemma digit_ne_plus {c : Char} (h : isDigitChar c = true) : c ≠ '+' := by
  intro hc
  subst hc
  exact absurd h (by decide)

/-- Digits are not the space character. -/
lemma digit_ne_space {c : Char} (h : isDigitChar c = true) : c ≠ ' ' := by
  intro hc
  subst hc
  exact absurd h (by decide)

/-- On a pure digit run, `atol` is plain decimal accumulation. -/
lemma atol_digits (ds : List Char) (hne : ds ≠ [])
    (hd : ∀ c ∈ ds, isDigitChar c = true) :
    atol ds = (readDigits ds 0 : Int) := by
  cases ds with
  | nil => exact absurd rfl hne
  | cons c t =>
    have hc := hd c (List.mem_cons_self c t)
    have hs : isSpaceChar c = false := digit_not_space hc
    unfold atol
    rw [List.dropWhile_cons_of_neg (by simp [hs])]
    simp only [digit_ne_minus hc, digit_ne_plus hc, if_false, reduceIte]

/-- Index of the first space after a space-free block. -/
lemma findIdx_space_append (xs ys : List Char)
    (h : ∀ c ∈ xs, c ≠ ' ') (i : Nat) :
    List.findIdx? (fun x => x = ' ') (xs ++ ' ' :: ys) i =
      some (i + xs.length) := by
  induction xs generalizing i with
  | nil => simp [List.findIdx?_cons]
  | cons c t ih =>
    have hc : (decide (c = ' ')) = false :=
      decide_eq_false (h c (List.mem_cons_self c t))
    simp only [List.cons_append, List.findIdx?_cons, hc, if_false]
    rw [ih (fun x hx => h x (List.mem_cons_of_mem c hx)) (i + 1)]
    simp [List.length_cons]
    omega

/-- Exact behaviour of `parseResLine` on a strict two-field line
`"RES <digits> <digits>"`: it parses both fields by decimal
accumulation, and accepts exactly when the class value is 0 or 1 (the
bean field being positive by hypothesis). -/
lemma parseResLine_strict_complete (ds cs : List Char)
    (hdne : ds ≠ []) (hcne : cs ≠ [])
    (hd : ∀ c ∈ ds, isDigitChar c = true)
    (hc : ∀ c ∈ cs, isDigitChar c = true)
    (hpos : 0 < readDigits ds 0) :
    parseResLine (RES_PRE ++ ds ++ (' ' :: cs)) =
      if (readDigits cs 0 : Int) = 0 ∨ (readDigits cs 0 : Int) = 1 then
        some ((readDigits ds 0 : Int), (readDigits cs 0 : Int))
      else none := by
  have hdrop4 : (RES_PRE ++ ds ++ (' ' :: cs)).drop 4 = ds ++ (' ' :: cs) := by
    rw [List.append_assoc]
    exact List.drop_left' rfl
  have hp1 : indexOfFrom (' ') (RES_PRE ++ ds ++ (' ' :: cs)) 0 = 3 := by
    unfold indexOfFrom
    simp [RES_PRE, List.findIdx?_cons]
  have hp2 : indexOfFrom (' ') (RES_PRE ++ ds ++ (' ' :: cs)) 4 =
      ((4 + ds.length : Nat) : Int) := by
    unfold indexOfFrom
    rw [hdrop4,
      findIdx_space_append ds cs (fun x hx => digit_ne_space (hd x hx)) 0]
    simp
  have hsub1 : substring (RES_PRE ++ ds ++ (' ' :: cs)) 4 (4 + ds.length)
      = ds := by
    unfold substring
    rw [if_neg (by omega)]
    dsimp only
    rw [← List.take_drop 4 ds.length, hdrop4]
    exact List.take_left' rfl
  have hassoc : RES_PRE ++ ds ++ (' ' :: cs) =
      (RES_PRE ++ ds ++ [' ']) ++ cs := by
    simp
  have hlen : (RES_PRE ++ ds ++ [' ']).length = 5 + ds.length := by
    simp [RES_PRE]
    omega
  have hsub2 : substring (RES_PRE ++ ds ++ (' ' :: cs)) (5 + ds.length)
      (RES_PRE ++ ds ++ (' ' :: cs)).length = cs := by
    unfold substring
    rw [if_neg (by
      simp [RES_PRE]
      omega)]
    dsimp only
    rw [List.take_length, hassoc]
    exact List.drop_left' hlen
  have hpre : List.isPrefixOf RES_PRE (RES_PRE ++ ds ++ (' ' :: cs)) = true := by
    rw [List.isPrefixOf_iff_prefix, List.append_assoc]
    exact List.prefix_append _ _
  unfold parseResLine
  rw [if_neg (by simp [hpre])]
  simp only [hp1]
  simp only [show ((3 : Int) + 1).toNat = 4 from rfl, hp2]
  have hg1 : ¬ ((3 : Int) < 0 ∨ ((4 + ds.length : Nat) : Int) < 0) := by
    omega
  rw [if_neg hg1]
  simp only [Int.toNat_natCast, Int.toNat_natCast_add_one]
  simp only [show 4 + ds.length + 1 = 5 + ds.length by omega]
  rw [hsub1, hsub2, atol_digits ds hdne hd, atol_digits cs hcne hc]
  have hg2 : ¬ (((readDigits ds 0 : Nat) : Int) ≤ 0) := by
    omega
  rw [if_neg hg2]
  by_cases hcls : ((readDigits cs 0 : Nat) : Int) = 0 ∨
      ((readDigits cs 0 : Nat) : Int) = 1
  · rw [if_neg (by tauto), if_pos hcls]
  · rw [if_pos (by tauto), if_neg hcls]

/-- Counterexample to C5 as stated: `parseResLine` accepts the
four-field line `"RES 5 1 2"` (the class field is read by
leading-integer conversion, ignoring the trailing `" 2"`) and the
non-numeric-class line `"RES 5 x"` (whose class field converts to 0),
so lines with wrong field count or non-numeric class text are not all
rejected. -/
theorem parseResLine_lax_counterexample :
    parseResLine ['R', 'E', 'S', ' ', '5', ' ', '1', ' ', '2'] = some (5, 1) ∧
    parseResLine ['R', 'E', 'S', ' ', '5', ' ', 'x'] = some (5, 0) := by
  exact ⟨by decide, by decide⟩

/-- C5 amended: (i) every line `parseResLine` accepts yields
`beanId > 0`, class in `{0, 1}` and starts with `"RES "`; (ii) every
strict two-field line `"RES <digits> <digits>"` with positive bean
field and class field reading 0 or 1 is accepted with exactly those
values; (iii) every rejected line causes no state change in the result
handler.  (A converse of (ii) fails: `toInt` conversion also accepts
extra fields or non-numeric class text, per the counterexample.) -/
theorem parseResLine_amended :
    (∀ (l : List Char) (rid rcls : Int), parseResLine l = some (rid, rcls) →
      0 < rid ∧ (rcls = 0 ∨ rcls = 1) ∧ List.isPrefixOf RES_PRE l = true) ∧
    (∀ ds cs : List Char, ds ≠ [] → cs ≠ [] →
      (∀ c ∈ ds, isDigitChar c = true) →
      (∀ c ∈ cs, isDigitChar c = true) →
      0 < readDigits ds 0 → (readDigits cs 0 = 0 ∨ readDigits cs 0 = 1) →
      parseResLine (RES_PRE ++ ds ++ (' ' :: cs)) =
        some ((readDigits ds 0 : Int), (readDigits cs 0 : Int))) ∧
    (∀ (m : Machine) (l : List Char), parseResLine l = none →
      processResLine m l = m) := by
  refine ⟨?_, ?_, ?_⟩
  · intro l rid rcls h
    have hpre := res_prefix_of_parse h
    refine ⟨?_, ?_, hpre⟩ <;>
    · unfold parseResLine at h
      rw [if_neg (not_not_intro hpre)] at h
      dsimp only at h
      split at h
      · exact absurd h (by simp)
      · split at h
        · exact absurd h (by simp)
        · split at h
          · exact absurd h (by simp)
          · rename_i hbean hcls
            simp only [Option.some.injEq, Prod.mk.injEq] at h
            obtain ⟨hb, hc⟩ := h
            first
              | (rw [← hb]; omega)
              | (rw [← hc]; exact not_not.mp hcls)
  · intro ds cs hdne hcne hd hc hpos hcls
    rw [parseResLine_strict_complete ds cs hdne hcne hd hc hpos]
    rw [if_pos (by rcases hcls with h | h <;> simp [h])]
  · intro m l h
    simp [processResLine, h]

/-- Witness for the amended C5: the strict line `"RES 42 1"` parses to
bean 42, class 1. -/
theorem parseResLine_amended_witness :
    parseResLine (RES_PRE ++ ['4', '2'] ++ (' ' :: ['1'])) =
      some ((readDigits ['4', '2'] 0 : Int), (readDigits ['1'] 0 : Int)) :=
  parseResLine_amended.2.1 ['4', '2'] ['1'] (by decide) (by decide)
    (by decide) (by decide) (by decide) (by decide)

end ArduinoBrain
